import Mathlib

/-!
Verification of `osmium::ProgressBar` (include/osmium/util/progress_bar.hpp).

The C++ class keeps six member fields and writes progress lines to stderr.
We embed the state as a structure, each member function as a state
transformer returning the list of characters it writes, and the stream as
the concatenated output.  The `bar()` string literal in the source has
exactly 70 characters (`=`), the `spc()` literal has exactly 69 characters
(spaces); pointer arithmetic `bar() + length - num` and `spc() + num` is
embedded as `List.drop`.

The fill count `num = size_t(percent * (length / 100.0))` is computed in
IEEE-754 double precision in the source.  We embed it exactly over the
naturals: `70/100.0` is the correctly rounded double nearest to 7/10
(mantissa `rdivNE (7 * 2^53) 10` at scale `2^53`); the `size_t`
percent is converted to double by rounding to 53 significant bits
(nearest, ties to even), the product is again rounded to 53 significant
bits, and the `size_t` cast truncates, which on the nonnegative result is
floor, i.e. a natural-number division by `2^53`.
-/

/-- Bit length of a natural number, with explicit structural fuel
(the fuel argument only bounds the recursion depth; `bits n := bitsAux n n`
is exact because `n / 2 < n` for `n > 0`). -/
def bitsAux : ℕ → ℕ → ℕ
  | 0, _ => 0
  | fuel + 1, n => if n = 0 then 0 else bitsAux fuel (n / 2) + 1

/-- Bit length: `bits 0 = 0`, and `2 ^ (bits n - 1) ≤ n < 2 ^ bits n` for `n > 0`. -/
def bits (n : ℕ) : ℕ := bitsAux n n

/-- Round the quotient `a / b` to the nearest integer, ties to even:
the IEEE-754 correctly rounded division on exact operands. -/
def rdivNE (a b : ℕ) : ℕ :=
  let q := a / b
  let r := a % b
  if 2 * r < b then q else if b < 2 * r then q + 1 else if q % 2 = 0 then q else q + 1

/-- Round a natural number to 53 significant bits, nearest, ties to even:
the value of the IEEE-754 double nearest to `N` (no overflow below 2^1024). -/
def rnd53 (N : ℕ) : ℕ :=
  if N < 2 ^ 53 then N
  else
    let s := bits N - 53
    let q := N / 2 ^ s
    let r := N % 2 ^ s
    let h := 2 ^ (s - 1)
    (if r < h then q else if h < r then q + 1 else if q % 2 = 0 then q else q + 1) * 2 ^ s

/-- Mantissa (at scale `2^53`) of the double `70 / 100.0` computed by the
source: the correctly rounded quotient 7/10, which lies in [1/2, 1). -/
def flRatioMantissa : ℕ := rdivNE (7 * 2 ^ 53) 10

/-- Fill-cell count of the source line
`const size_t num = size_t(percent * (length / 100.0));`
computed exactly: convert `percent` to double (`rnd53`), multiply by the
double `70/100.0` (exact product `rnd53 percent * flRatioMantissa` at scale
`2^53`, rounded back to 53 significant bits), then truncate to integer. -/
def numOf (percent : ℕ) : ℕ := rnd53 (rnd53 percent * flRatioMantissa) / 2 ^ 53

/-- The 70-character string literal returned by `ProgressBar::bar()`. -/
def barStr : List Char := List.replicate 70 '='

/-- The 69-character string literal returned by `ProgressBar::spc()`. -/
def spcStr : List Char := List.replicate 69 ' '

/-- State of an `osmium::ProgressBar` object (the six member fields). -/
structure ProgressBar where
  m_max_size : ℕ
  m_done_size : ℕ
  m_current_size : ℕ
  m_prev_percent : ℕ
  m_enable : Bool
  m_do_cleanup : Bool
  deriving DecidableEq, Repr

/-- Constructor `ProgressBar(size_t max_size, bool enable)`:
stores `max_size`, computes `m_enable = max_size > 0 && enable`; the other
members take their in-class initializers (`0`, `0`, `100 + 1`, `true`). -/
def mkProgressBar (max_size : ℕ) (enable : Bool) : ProgressBar :=
  { m_max_size := max_size
    m_done_size := 0
    m_current_size := 0
    m_prev_percent := 100 + 1
    m_enable := decide (0 < max_size) && enable
    m_do_cleanup := true }

/-- The percent computed at the top of `display()`:
`100 * (m_done_size + m_current_size) / m_max_size` (truncating division). -/
def percentOf (s : ProgressBar) : ℕ :=
  100 * (s.m_done_size + s.m_current_size) / s.m_max_size

/-- Characters written after the closing bracket: `"] "`, a pad space if
`percent < 10`, a pad space if `percent < 100`, the decimal digits of
`percent`, then `"% \r"`.  (The opening `']'` is emitted by the caller.) -/
def statusOf (percent : ℕ) : List Char :=
  ' ' :: (if percent < 10 then [' '] else []) ++ (if percent < 100 then [' '] else [])
    ++ Nat.toDigits 10 percent ++ '%' :: ' ' :: ['\r']

/-- The full line written by one (non-deduplicated) `display()` call:
`'['`, then either the whole 70-char fill (when `num >= length`) or
`bar() + length - num` (the last `num` fill chars), `'>'`, `spc() + num`
(the last `69 - num` spaces); then `']'` and the status suffix. -/
def renderLine (percent : ℕ) : List Char :=
  let num := numOf percent
  (if 70 ≤ num then '[' :: barStr
   else '[' :: (barStr.drop (70 - num) ++ '>' :: spcStr.drop num))
    ++ ']' :: statusOf percent

/-- `ProgressBar::display()`: skip when the percent equals `m_prev_percent`,
otherwise store it and write the rendered line. -/
def ProgressBar.display (s : ProgressBar) : ProgressBar × List Char :=
  let percent := percentOf s
  if s.m_prev_percent = percent then (s, [])
  else ({ s with m_prev_percent := percent }, renderLine percent)

/-- `ProgressBar::update(size_t current_size)`: no-op when disabled,
otherwise overwrite `m_current_size` and call `display()`. -/
def ProgressBar.update (s : ProgressBar) (current_size : ℕ) : ProgressBar × List Char :=
  if !s.m_enable then (s, [])
  else ProgressBar.display { s with m_current_size := current_size }

/-- `ProgressBar::file_done(size_t file_size)`: when enabled, add
`file_size` to `m_done_size`, reset `m_current_size` to 0, call `display()`. -/
def ProgressBar.file_done (s : ProgressBar) (file_size : ℕ) : ProgressBar × List Char :=
  if s.m_enable then
    ProgressBar.display
      { s with m_done_size := s.m_done_size + file_size, m_current_size := 0 }
  else (s, [])

/-- `ProgressBar::done()`: clear `m_do_cleanup` unconditionally; when
enabled, set `m_done_size = m_max_size`, `m_current_size = 0`, call
`display()`, and write a final `'\n'`. -/
def ProgressBar.done (s : ProgressBar) : ProgressBar × List Char :=
  let s0 : ProgressBar := { s with m_do_cleanup := false }
  if s0.m_enable then
    let r := ProgressBar.display { s0 with m_done_size := s0.m_max_size, m_current_size := 0 }
    (r.1, r.2 ++ ['\n'])
  else (s0, [])

/-- `ProgressBar::remove()`: when enabled, write `spc()`, nine spaces and a
carriage return, and reset `m_prev_percent` to the sentinel `100 + 1`. -/
def ProgressBar.remove (s : ProgressBar) : ProgressBar × List Char :=
  if s.m_enable then
    ({ s with m_prev_percent := 100 + 1 }, spcStr ++ List.replicate 9 ' ' ++ ['\r'])
  else (s, [])

/-- Destructor `~ProgressBar()`: when `m_do_cleanup` still holds, call
`done()` (exceptions swallowed; see `dtorE` for the fallible version). -/
def ProgressBar.dtor (s : ProgressBar) : ProgressBar × List Char :=
  if s.m_do_cleanup then s.done else (s, [])

/-- One public operation on a progress bar. -/
inductive Op where
  | update (current_size : ℕ)
  | file_done (file_size : ℕ)
  | done
  | remove
  deriving DecidableEq, Repr

/-- Apply one operation. -/
def runOp : Op → ProgressBar → ProgressBar × List Char
  | Op.update n, s => s.update n
  | Op.file_done n, s => s.file_done n
  | Op.done, s => s.done
  | Op.remove, s => s.remove

/-- Run a sequence of operations, concatenating everything written. -/
def run : List Op → ProgressBar → ProgressBar × List Char
  | [], s => (s, [])
  | op :: ops, s =>
    let r1 := runOp op s
    let r2 := run ops r1.1
    (r2.1, r1.2 ++ r2.2)

/-- `done()` with a fallible stream: when the stream is in a failed state
(`fail = true`) and the renderer is enabled, the first write throws (the
field assignments made before the throw persist in the error state);
otherwise it behaves like `done()`. -/
def ProgressBar.doneE (s : ProgressBar) (fail : Bool) :
    Except ProgressBar (ProgressBar × List Char) :=
  let r := s.done
  if s.m_enable && fail then Except.error r.1 else Except.ok r

/-- Destructor with a fallible stream: `done()` is attempted only when
`m_do_cleanup` holds, inside a catch-all that swallows the exception (the
failed write produced no visible output). -/
def ProgressBar.dtorE (s : ProgressBar) (fail : Bool) :
    Except ProgressBar (ProgressBar × List Char) :=
  if s.m_do_cleanup then
    match s.doneE fail with
    | Except.ok r => Except.ok r
    | Except.error s1 => Except.ok (s1, [])
  else Except.ok (s, [])

/-- C1: for a renderer constructed with `max_size = 100`, `enable = true`,
the first `update(50)` renders a line whose percent field is `50` (padded
to width 3) and whose fill-glyph count is 35, agreeing with
`floor(50 * 0.7) = 35`. -/
theorem C1_first_update_fifty :
    ((mkProgressBar 100 true).update 50).2.count '=' = 35 ∧
    ((mkProgressBar 100 true).update 50).1.m_prev_percent = 50 ∧
    ((mkProgressBar 100 true).update 50).2 =
      '[' :: List.replicate 35 '=' ++ '>' :: List.replicate 34 ' '
        ++ ']' :: ' ' :: ' ' :: Nat.toDigits 10 50 ++ '%' :: ' ' :: ['\r'] ∧
    numOf 50 = 35 := by
  refine ⟨by decide, by decide, by decide, by decide⟩

/-- Helper: `display()` never changes `m_max_size`. -/
theorem display_max_size (s : ProgressBar) : s.display.1.m_max_size = s.m_max_size := by
  simp only [ProgressBar.display]; split <;> rfl

/-- Helper: `display()` never changes `m_done_size`. -/
theorem display_done_size (s : ProgressBar) : s.display.1.m_done_size = s.m_done_size := by
  simp only [ProgressBar.display]; split <;> rfl

/-- Helper: `display()` never changes `m_current_size`. -/
theorem display_current_size (s : ProgressBar) : s.display.1.m_current_size = s.m_current_size := by
  simp only [ProgressBar.display]; split <;> rfl

/-- Helper: `display()` never changes `m_enable`. -/
theorem display_enable (s : ProgressBar) : s.display.1.m_enable = s.m_enable := by
  simp only [ProgressBar.display]; split <;> rfl

/-- Helper: `display()` never changes `m_do_cleanup`. -/
theorem display_cleanup (s : ProgressBar) : s.display.1.m_do_cleanup = s.m_do_cleanup := by
  simp only [ProgressBar.display]; split <;> rfl

/-- C2 counterexample: at the first `update(50)` on a bar with
`max_size = 100` the fill count is 35, yet the body emitted between `'['`
and `']'` is not `35` fills, `'>'`, `70 - 35 = 35` blanks: the `spc()`
literal has 69 characters, so only `34` blanks follow the `'>'`. -/
theorem C2_counterexample :
    numOf 50 = 35 ∧
    (((mkProgressBar 100 true).update 50).2.drop 1).takeWhile (fun c => c != ']') ≠
      List.replicate 35 '=' ++ '>' :: List.replicate 35 ' ' := by
  exact ⟨by decide, by decide⟩

/-- C2 amended: every non-deduplicated render emits `'['`, then (when
`num < 70`) `num` fill glyphs, one `'>'`, and `69 - num` blank glyphs, or
(when `num ≥ 70`) the full 70 fill glyphs with no boundary and no blanks,
then `']'` and the status suffix. -/
theorem C2_render_body (s : ProgressBar) (h : s.m_prev_percent ≠ percentOf s) :
    s.display.2 =
      '[' :: ((if numOf (percentOf s) < 70 then
          List.replicate (numOf (percentOf s)) '='
            ++ '>' :: List.replicate (69 - numOf (percentOf s)) ' '
        else List.replicate 70 '=') ++ ']' :: statusOf (percentOf s)) := by
  rcases Nat.lt_or_ge (numOf (percentOf s)) 70 with h70 | h70
  · simp only [ProgressBar.display, renderLine, barStr, spcStr, if_neg h,
      if_neg (Nat.not_le.mpr h70), if_pos h70, List.drop_replicate,
      Nat.sub_sub_self (Nat.le_of_lt h70), List.cons_append, List.append_assoc]
  · simp only [ProgressBar.display, renderLine, barStr, spcStr, if_neg h,
      if_pos h70, if_neg (Nat.not_lt.mpr h70), List.cons_append]

/-- C2 witness: the amended body shape at the first render of a fresh
enabled renderer (percent 0). -/
theorem C2_witness :
    (mkProgressBar 100 true).m_prev_percent ≠ percentOf (mkProgressBar 100 true) ∧
    (mkProgressBar 100 true).display.2 =
      '[' :: ((if numOf (percentOf (mkProgressBar 100 true)) < 70 then
          List.replicate (numOf (percentOf (mkProgressBar 100 true))) '='
            ++ '>' :: List.replicate (69 - numOf (percentOf (mkProgressBar 100 true))) ' '
        else List.replicate 70 '=') ++ ']' :: statusOf (percentOf (mkProgressBar 100 true))) :=
  ⟨by decide, C2_render_body (mkProgressBar 100 true) (by decide)⟩

/-- C3 counterexample: on an enabled renderer a second consecutive `done()`
writes only the newline — it does not re-render the 100% bar, because
`display()` deduplicates on `m_prev_percent = 100`. -/
theorem C3_counterexample :
    ((mkProgressBar 10 true).done.1).done.2 = ['\n'] ∧
    (['\n'] : List Char) ≠ renderLine 100 ++ ['\n'] := by
  exact ⟨by decide, by decide⟩

/-- C3 amended: `done()` on an enabled renderer writes exactly one trailing
newline per call; it renders the 100% bar exactly when the previously
rendered percent differs from 100; in particular a second consecutive
`done()` writes only the newline. -/
theorem C3_done_newline (s : ProgressBar) (he : s.m_enable = true)
    (hm : 0 < s.m_max_size) :
    s.done.2 = (if s.m_prev_percent = 100 then [] else renderLine 100) ++ ['\n'] ∧
    (s.done.1).done.2 = ['\n'] := by
  have hp : 100 * s.m_max_size / s.m_max_size = 100 := Nat.mul_div_cancel 100 hm
  by_cases h100 : s.m_prev_percent = 100 <;>
    simp [ProgressBar.done, ProgressBar.display, percentOf, he, h100, hp]

/-- C3 witness: the amended behavior at a fresh enabled renderer. -/
theorem C3_witness :
    (mkProgressBar 10 true).done.2 =
      (if (mkProgressBar 10 true).m_prev_percent = 100 then [] else renderLine 100)
        ++ ['\n'] ∧
    ((mkProgressBar 10 true).done.1).done.2 = ['\n'] :=
  C3_done_newline (mkProgressBar 10 true) (by decide) (by decide)

/-- C4 counterexample: `done_size` is not changed only by `file_done`, and
it can decrease: after `file_done(20)` on an enabled renderer with
`max_size = 10`, the `done()` call lowers `m_done_size` from 20 to 10. -/
theorem C4_counterexample :
    (((mkProgressBar 10 true).file_done 20).1.done).1.m_done_size <
      ((mkProgressBar 10 true).file_done 20).1.m_done_size := by
  decide

/-- C4 amended: `m_done_size` starts at 0; `update` and `remove` never
change it; `file_done(f)` adds `f` when the renderer is enabled and leaves
it unchanged otherwise; `done()` sets it to `m_max_size` when enabled —
so it can decrease only through a `done()` call after it has exceeded
`m_max_size`. -/
theorem C4_done_size_characterization (m : ℕ) (e : Bool) (s : ProgressBar) (op : Op) :
    (mkProgressBar m e).m_done_size = 0 ∧
    (runOp op s).1.m_done_size =
      (match op with
       | Op.update _ => s.m_done_size
       | Op.remove => s.m_done_size
       | Op.file_done f => if s.m_enable then s.m_done_size + f else s.m_done_size
       | Op.done => if s.m_enable then s.m_max_size else s.m_done_size) := by
  refine ⟨rfl, ?_⟩
  cases op with
  | update n =>
    by_cases he : s.m_enable <;>
      simp [runOp, ProgressBar.update, he, display_done_size]
  | file_done f =>
    by_cases he : s.m_enable <;>
      simp [runOp, ProgressBar.file_done, he, display_done_size]
  | done =>
    by_cases he : s.m_enable <;>
      simp [runOp, ProgressBar.done, he, display_done_size]
  | remove =>
    by_cases he : s.m_enable <;> simp [runOp, ProgressBar.remove, he]

/-- Helper: any operation on a disabled renderer writes nothing and leaves
the renderer disabled. -/
theorem runOp_disabled (op : Op) (s : ProgressBar) (h : s.m_enable = false) :
    (runOp op s).2 = [] ∧ (runOp op s).1.m_enable = false := by
  cases op <;>
    simp [runOp, ProgressBar.update, ProgressBar.file_done, ProgressBar.done,
      ProgressBar.remove, h]

/-- Helper: a whole operation sequence on a disabled renderer writes nothing. -/
theorem run_disabled (ops : List Op) (s : ProgressBar) (h : s.m_enable = false) :
    (run ops s).2 = [] := by
  induction ops generalizing s with
  | nil => rfl
  | cons op ops ih =>
    have h1 := runOp_disabled op s h
    simp [run, h1.1, ih _ h1.2]

/-- C5: a renderer constructed with `enable = false` or with `max_size = 0`
is disabled, and every sequence of `update`/`file_done`/`done`/`remove`
calls on it produces zero output (in particular `display()`, and with it
the division by `m_max_size`, is never reached: every call site of
`display()` is guarded by `m_enable`). -/
theorem C5_disabled_silent (ops : List Op) (m : ℕ) (e : Bool)
    (h : e = false ∨ m = 0) :
    (run ops (mkProgressBar m e)).2 = [] := by
  apply run_disabled
  rcases h with h | h <;> simp [mkProgressBar, h]

/-- C5 witness: a disabled-by-zero-total renderer stays silent on a sample
sequence. -/
theorem C5_witness :
    (run [Op.update 5, Op.file_done 3, Op.done, Op.remove]
      (mkProgressBar 0 true)).2 = [] :=
  C5_disabled_silent [Op.update 5, Op.file_done 3, Op.done, Op.remove] 0 true (Or.inr rfl)

/-- C6: on an enabled renderer, if `update(x)` produced output then an
immediately repeated `update(x)` produces no output: the percent is
unchanged and `display()` deduplicates on `m_prev_percent`. -/
theorem C6_update_dedup (s : ProgressBar) (x : ℕ) (he : s.m_enable = true)
    (hout : (s.update x).2 ≠ []) :
    ((s.update x).1.update x).2 = [] := by
  by_cases hprev : s.m_prev_percent = 100 * (s.m_done_size + x) / s.m_max_size
  · exact absurd (by simp [ProgressBar.update, he, ProgressBar.display, percentOf, hprev]) hout
  · simp [ProgressBar.update, he, ProgressBar.display, percentOf, hprev]

/-- C6 witness: concrete dedup instance at `max_size = 100`, `x = 50`. -/
theorem C6_witness :
    (mkProgressBar 100 true).m_enable = true ∧
    ((mkProgressBar 100 true).update 50).2 ≠ [] ∧
    (((mkProgressBar 100 true).update 50).1.update 50).2 = [] :=
  ⟨by decide, by decide, C6_update_dedup (mkProgressBar 100 true) 50 (by decide) (by decide)⟩

/-- Helper: a rendered line is never empty (it starts with `'['`). -/
theorem renderLine_ne_nil (p : ℕ) : renderLine p ≠ [] := by
  simp only [renderLine]; split <;> simp

/-- C7 counterexample: with `max_size = 100`, after `update(50)` the call
`update(101)` renders (percent 101, unclamped); after `remove()`, repeating
`update(101)` produces no output, because the computed percent 101 equals
the sentinel that `remove()` stored in `m_prev_percent`. -/
theorem C7_counterexample :
    (((mkProgressBar 100 true).update 50).1.update 101).2 ≠ [] ∧
    (((((mkProgressBar 100 true).update 50).1.update 101).1.remove).1.update 101).2 = [] := by
  exact ⟨by decide, by decide⟩

/-- C7 amended: on an enabled renderer, `remove()` followed by `update(x)`
always renders provided the percent computed for `x` differs from the
sentinel value `101` (which an unclamped percent can reach). -/
theorem C7_remove_then_update (s : ProgressBar) (x : ℕ) (he : s.m_enable = true)
    (hp : 100 * (s.m_done_size + x) / s.m_max_size ≠ 101) :
    ((s.remove).1.update x).2 ≠ [] := by
  have hp' : ¬(100 + 1 = 100 * (s.m_done_size + x) / s.m_max_size) := by omega
  simp [ProgressBar.remove, he, ProgressBar.update, ProgressBar.display, percentOf, hp',
    renderLine_ne_nil]

/-- C7 witness: after `remove()`, `update(50)` on a fresh `max_size = 100`
renderer renders again. -/
theorem C7_witness :
    (mkProgressBar 100 true).m_enable = true ∧
    100 * ((mkProgressBar 100 true).m_done_size + 50) / (mkProgressBar 100 true).m_max_size ≠ 101 ∧
    (((mkProgressBar 100 true).remove).1.update 50).2 ≠ [] :=
  ⟨by decide, by decide, C7_remove_then_update (mkProgressBar 100 true) 50 (by decide) (by decide)⟩

/-- C8: for sources of sizes `A, B > 0` and `max_size = A + B`, after
`update(A)` then `file_done(A)` the displayed percent is `100*A/(A+B)`
(truncating division) and `m_current_size` is 0 (the `file_done` itself is
deduplicated since the percent did not change); the subsequent `update(B)`
renders percent 100. -/
theorem C8_multi_source (A B : ℕ) (hA : 0 < A) (hB : 0 < B) :
    (((mkProgressBar (A + B) true).update A).1.file_done A).1.m_prev_percent
        = 100 * A / (A + B) ∧
    (((mkProgressBar (A + B) true).update A).1.file_done A).1.m_current_size = 0 ∧
    ((((mkProgressBar (A + B) true).update A).1.file_done A).1.update B).1.m_prev_percent
        = 100 ∧
    ((((mkProgressBar (A + B) true).update A).1.file_done A).1.update B).2 ≠ [] := by
  have hAB : 0 < A + B := Nat.lt_of_lt_of_le hA (Nat.le_add_right A B)
  have hp1 : 100 * A / (A + B) < 100 := Nat.div_lt_of_lt_mul (by omega)
  have hne : ¬((101 : ℕ) = 100 * A / (A + B)) := by
    intro h
    rw [← h] at hp1
    exact absurd hp1 (by norm_num)
  have h100 : 100 * (A + B) / (A + B) = 100 := Nat.mul_div_cancel 100 hAB
  have h1 : (mkProgressBar (A + B) true).update A =
      ({ m_max_size := A + B, m_done_size := 0, m_current_size := A,
         m_prev_percent := 100 * A / (A + B), m_enable := true, m_do_cleanup := true },
       renderLine (100 * A / (A + B))) := by
    simp [ProgressBar.update, ProgressBar.display, percentOf, mkProgressBar, hAB, hne]
  have h2 : (({ m_max_size := A + B, m_done_size := 0, m_current_size := A,
                m_prev_percent := 100 * A / (A + B), m_enable := true,
                m_do_cleanup := true } : ProgressBar).file_done A) =
      ({ m_max_size := A + B, m_done_size := A, m_current_size := 0,
         m_prev_percent := 100 * A / (A + B), m_enable := true, m_do_cleanup := true }, []) := by
    simp [ProgressBar.file_done, ProgressBar.display, percentOf]
  have h3 : (({ m_max_size := A + B, m_done_size := A, m_current_size := 0,
                m_prev_percent := 100 * A / (A + B), m_enable := true,
                m_do_cleanup := true } : ProgressBar).update B) =
      ({ m_max_size := A + B, m_done_size := A, m_current_size := B,
         m_prev_percent := 100, m_enable := true, m_do_cleanup := true },
       renderLine 100) := by
    simp [ProgressBar.update, ProgressBar.display, percentOf, h100, Nat.ne_of_lt hp1]
  simp [h1, h2, h3, renderLine_ne_nil]

/-- C8 witness: the concrete instance `A = B = 1` (percent 50 after the
first source, percent 100 after the second). -/
theorem C8_witness :
    (0 < 1 ∧ 0 < 1) ∧
    ((((mkProgressBar (1 + 1) true).update 1).1.file_done 1).1.m_prev_percent
        = 100 * 1 / (1 + 1) ∧
     (((mkProgressBar (1 + 1) true).update 1).1.file_done 1).1.m_current_size = 0 ∧
     ((((mkProgressBar (1 + 1) true).update 1).1.file_done 1).1.update 1).1.m_prev_percent
        = 100 ∧
     ((((mkProgressBar (1 + 1) true).update 1).1.file_done 1).1.update 1).2 ≠ []) :=
  ⟨⟨by decide, by decide⟩, C8_multi_source 1 1 (by decide) (by decide)⟩

/-- C9: when `m_do_cleanup` is still set, destruction has the same terminal
effect as one explicit `done()` call (same final line and trailing
newline); the destructor never propagates a stream failure (`catch (...)`),
while the explicit `done()` call on an enabled renderer propagates it. -/
theorem C9_dtor_cleanup (s : ProgressBar) (fail : Bool) :
    (∃ r, s.dtorE fail = Except.ok r) ∧
    (s.m_do_cleanup = true → s.dtorE false = Except.ok s.done) ∧
    (s.m_enable = true → s.doneE true = Except.error s.done.1) := by
  refine ⟨?_, ?_, ?_⟩
  · by_cases hc : s.m_do_cleanup
    · by_cases he : (s.m_enable && fail)
      · exact ⟨(s.done.1, []), by simp [ProgressBar.dtorE, ProgressBar.doneE, hc, he]⟩
      · exact ⟨s.done, by simp [ProgressBar.dtorE, ProgressBar.doneE, hc, he]⟩
    · exact ⟨(s, []), by simp [ProgressBar.dtorE, hc]⟩
  · intro hc
    simp [ProgressBar.dtorE, ProgressBar.doneE, hc]
  · intro he
    simp [ProgressBar.doneE, he]

/-- C9 witness: a fresh enabled renderer — the destructor succeeds even on
a failing stream, matches `done()` on a healthy one, and the explicit
`done()` raises on the failing one. -/
theorem C9_witness :
    (∃ r, (mkProgressBar 10 true).dtorE true = Except.ok r) ∧
    ((mkProgressBar 10 true).dtorE false = Except.ok (mkProgressBar 10 true).done) ∧
    ((mkProgressBar 10 true).doneE true = Except.error (mkProgressBar 10 true).done.1) := by
  obtain ⟨a, b, c⟩ := C9_dtor_cleanup (mkProgressBar 10 true) true
  exact ⟨a, b rfl, c rfl⟩

/-- Helper: no operation ever sets `m_do_cleanup` back to `true`. -/
theorem runOp_cleanup_mono (op : Op) (s : ProgressBar) (h : s.m_do_cleanup = false) :
    (runOp op s).1.m_do_cleanup = false := by
  cases op <;> by_cases he : s.m_enable <;>
    simp [runOp, ProgressBar.update, ProgressBar.file_done, ProgressBar.done,
      ProgressBar.remove, display_cleanup, he, h]

/-- Helper: once `m_do_cleanup` is `false` it stays `false` over any
operation sequence. -/
theorem run_cleanup_false (ops : List Op) (s : ProgressBar) (h : s.m_do_cleanup = false) :
    (run ops s).1.m_do_cleanup = false := by
  induction ops generalizing s with
  | nil => exact h
  | cons op ops ih =>
    simp only [run]
    exact ih _ (runOp_cleanup_mono op s h)

/-- C10: `done()` clears `m_do_cleanup` unconditionally — also on a
disabled renderer — no later operation sets it back, and hence after any
`done()` the destructor performs no render and writes no output. -/
theorem C10_cleanup_cleared (s : ProgressBar) (ops : List Op) :
    s.done.1.m_do_cleanup = false ∧
    (run ops s.done.1).1.m_do_cleanup = false ∧
    (run ops s.done.1).1.dtor = ((run ops s.done.1).1, []) := by
  have h0 : s.done.1.m_do_cleanup = false := by
    by_cases he : s.m_enable <;> simp [ProgressBar.done, he, display_cleanup]
  have h1 := run_cleanup_false ops _ h0
  exact ⟨h0, h1, by simp [ProgressBar.dtor, h1]⟩
